import Mathlib

/-!
# Verification of the session-pool-and-broker subsystem

Shallow embedding, in Lean 4, of the execution-session pool and streaming
broker of the code-tutor backend:

* `E2BService` (`backend/services/e2b_service.py`): the bounded sandbox
  session pool (`active_sessions`, insertion-ordered as a Python dict),
  session creation with capacity eviction (`_create_session`), session
  close (`_close_session`), and the streaming executors
  (`execute_python_code` / `execute_javascript_code`);
* the websocket dispatcher `handle_code_execution` (`backend/main.py`);
* `WebSocketManager.connect` (`backend/api/websocket_manager.py`);
* `RateLimiter.is_allowed` and `AsyncRateLimiter`
  (`q2_stock_market_chat_app/app/utils/rate_limiter.py`).

External effects (the remote sandbox create/close calls, whether a remote
close raises, the remote process's lines and exit code, execution duration)
are passed in as explicit data; timestamps are rationals.
-/

namespace CodeTutor

/-! ## Insertion-ordered dictionaries (Python `dict` semantics)

A Python `dict` preserves insertion order; assignment to an existing key
updates the value in place (keeping the key's position), assignment to a
fresh key appends, and `del` removes the entry. `next(iter(d))` is the
first-inserted key. -/

/-- An insertion-ordered string-keyed mapping, as a list of key/value pairs
in insertion order. -/
abbrev Dict (α : Type) := List (String × α)

/-- `k in d` for a Python dict. -/
def dictMem {α : Type} (d : Dict α) (k : String) : Bool :=
  d.any (fun p => p.1 == k)

/-- `d[k] = v`: update in place when the key exists (keeping its position),
append otherwise. -/
def dictInsert {α : Type} (d : Dict α) (k : String) (v : α) : Dict α :=
  if dictMem d k then d.map (fun p => if p.1 == k then (k, v) else p)
  else d ++ [(k, v)]

/-- `del d[k]`: remove the entry for `k`. -/
def dictErase {α : Type} (d : Dict α) (k : String) : Dict α :=
  d.filter (fun p => !(p.1 == k))

/-- `d[k]` as an option. -/
def dictLookup {α : Type} (d : Dict α) (k : String) : Option α :=
  (d.find? (fun p => p.1 == k)).map (fun p => p.2)

/-! ## The E2B session pool (`E2BService`) -/

/-- Calls made to the external sandbox collaborator, recorded as a trace. -/
inductive ExtCall where
  | sandboxCreate
  | sandboxClose (sid : String)
deriving DecidableEq, Repr

/-- The state of `E2BService` that the pool logic touches: the API key and
the `active_sessions` dict (session id ↦ remote sandbox handle, modelled as
`Nat`), plus the `max_sessions` bound (10 in `__init__`). -/
structure E2BService where
  api_key : String
  active_sessions : Dict Nat
  max_sessions : Nat
deriving DecidableEq, Repr

/-- `E2BService.is_available`: `bool(self.api_key)` — the key is set and
non-empty (Pydantic's default is `None`, embedded as `""`). -/
def is_available (svc : E2BService) : Bool :=
  !svc.api_key.isEmpty

/-- `E2BService._close_session(session_id)`. The remote `close()` and the
`del` both sit inside the `try`: when `close()` raises (`closeRaises`),
the exception is caught and logged and the `del` never runs, so the entry
stays in `active_sessions`. Returns the new state and the external calls
made. -/
def close_session (svc : E2BService) (sid : String) (closeRaises : Bool) :
    E2BService × List ExtCall :=
  if dictMem svc.active_sessions sid then
    if closeRaises then (svc, [ExtCall.sandboxClose sid])
    else ({ svc with active_sessions := dictErase svc.active_sessions sid },
          [ExtCall.sandboxClose sid])
  else (svc, [])

/-- `E2BService._create_session(session_id)`. When
`len(active_sessions) >= max_sessions` it first closes
`next(iter(active_sessions))` — the first-inserted key — then calls
`AsyncSandbox.create`. `createRaises` is that remote call raising: the
exception propagates to the caller (`none`) with the post-eviction state;
otherwise the fresh handle is stored under `session_id`. -/
def create_session (svc : E2BService) (sid : String) (newHandle : Nat)
    (evictCloseRaises createRaises : Bool) :
    Option Nat × E2BService × List ExtCall :=
  let evicted :=
    if svc.max_sessions ≤ svc.active_sessions.length then
      match svc.active_sessions.head? with
      | some p => close_session svc p.1 evictCloseRaises
      | none => (svc, [])
    else (svc, [])
  if createRaises then (none, evicted.1, evicted.2 ++ [ExtCall.sandboxCreate])
  else (some newHandle,
        { evicted.1 with
            active_sessions := dictInsert evicted.1.active_sessions sid newHandle },
        evicted.2 ++ [ExtCall.sandboxCreate])

/-- A pool with `n` distinct sessions `"s0" … "s(n-1)"`, in insertion
order. -/
def poolOfSize (n : Nat) : Dict Nat :=
  (List.range n).map (fun i => (String.append "s" (toString i), i))

/-- A service holding a full pool of ten sessions, with an API key set. -/
def svcFull : E2BService :=
  { api_key := "key", active_sessions := poolOfSize 10, max_sessions := 10 }

/-- **C1.** The pool never holds more than `max_sessions` entries — the
claim extends this to the case where closing the evicted session's remote
resource raises. The code violates exactly that case: with a full pool of
ten sessions, a `_create_session` whose eviction `close()` raises leaves
the evicted entry in `active_sessions` (the `del` sits after `close()`
inside the `try`) and then stores the new session, giving eleven live
entries — exceeding `max_sessions = 10`. -/
theorem C1_pool_bound_violated_on_close_failure :
    ((create_session svcFull "fresh" 99 true false).2.1.active_sessions.length = 11)
    ∧ svcFull.active_sessions.length = svcFull.max_sessions := by
  constructor
  · rfl
  · rfl

/-! ## The execution streamer (`execute_python_code` / `execute_javascript_code`)

Both generators have the same body up to the wrapped shell command, which
is opaque at this abstraction level: check availability, create a session
keyed by the execution id (`_create_session` evicts when at capacity),
start the remote process, relay each non-empty output line with a trailing
newline, append an exit-code notice when the exit code is non-zero; any
exception anywhere in the `try` is caught and turned into a single
`"Execution error: …"` chunk; the `finally` closes the session when one
was created. The remote run's behaviour is passed in as a `RunOutcome`. -/

/-- How the remote side of one execution behaves, as observed by the
generator's `try` block. `duration` on `finished` is the wall-clock time
(seconds) the remote process took; the code never reads any clock. -/
inductive RunOutcome where
  /-- `AsyncSandbox.create` raised, with the exception's message. -/
  | createError (msg : String)
  /-- `session.process.start` raised. -/
  | startError (msg : String)
  /-- the output stream raised after yielding `lines`. -/
  | streamError (lines : List String) (msg : String)
  /-- the process ran to completion with the given output lines, exit
  code, and duration in seconds. -/
  | finished (lines : List String) (exitCode : Int) (duration : Nat)
deriving DecidableEq, Repr

/-- The `async for output in process.output:` loop: each truthy
(non-empty) `output.line` is yielded with a newline appended. -/
def relayLines (lines : List String) : List String :=
  (lines.filter (fun l => !l.isEmpty)).map (fun l => String.append l "\n")

/-- The chunk yielded when the service has no API key. -/
def unavailableMsg : String :=
  "E2B service not available. Please configure E2B API key."

/-- `E2BService.execute_python_code(code, execution_id)` as a function
from the service state and the remote run's behaviour to the yielded
chunks, the final service state, and the external calls made.
`evictCloseRaises` / `finalCloseRaises` say whether the remote `close()`
raises during capacity eviction / in the `finally` block. -/
def execute_python_code (svc : E2BService) (execution_id : String)
    (newHandle : Nat) (evictCloseRaises finalCloseRaises : Bool)
    (run : RunOutcome) : List String × E2BService × List ExtCall :=
  if !(is_available svc) then ([unavailableMsg], svc, [])
  else
    match run with
    | RunOutcome.createError msg =>
      -- `_create_session` raised: `session` is still `None`, so the
      -- `finally` closes nothing; the `except` yields one error chunk.
      let c := create_session svc execution_id newHandle evictCloseRaises true
      ([String.append (String.append "Execution error: " msg) "\n"], c.2.1, c.2.2)
    | RunOutcome.startError msg =>
      let c := create_session svc execution_id newHandle evictCloseRaises false
      let f := close_session c.2.1 execution_id finalCloseRaises
      ([String.append (String.append "Execution error: " msg) "\n"], f.1, c.2.2 ++ f.2)
    | RunOutcome.streamError lines msg =>
      let c := create_session svc execution_id newHandle evictCloseRaises false
      let f := close_session c.2.1 execution_id finalCloseRaises
      (relayLines lines ++ [String.append (String.append "Execution error: " msg) "\n"],
       f.1, c.2.2 ++ f.2)
    | RunOutcome.finished lines exitCode _duration =>
      let c := create_session svc execution_id newHandle evictCloseRaises false
      let f := close_session c.2.1 execution_id finalCloseRaises
      (relayLines lines ++
        (if exitCode ≠ 0 then
          [String.append
            (String.append "Execution completed with exit code: " (toString exitCode)) "\n"]
         else []),
       f.1, c.2.2 ++ f.2)

/-- `E2BService.execute_javascript_code`: the body is identical to the
Python variant except for the wrapped command, which is opaque here. -/
def execute_javascript_code (svc : E2BService) (execution_id : String)
    (newHandle : Nat) (evictCloseRaises finalCloseRaises : Bool)
    (run : RunOutcome) : List String × E2BService × List ExtCall :=
  execute_python_code svc execution_id newHandle evictCloseRaises finalCloseRaises run

/-! ## The websocket dispatcher (`handle_code_execution`, `backend/main.py`) -/

/-- The outbound websocket events the dispatcher sends for one execution. -/
inductive Event where
  | execution_start (execution_id : String)
  | execution_output (execution_id : String) (data : String)
  | execution_complete (execution_id : String)
  | execution_error (execution_id : Option String) (error : String)
deriving DecidableEq, Repr

/-- Terminal events of an execution's stream: `execution_complete` or
`execution_error`. -/
def isTerminal : Event → Bool
  | Event.execution_complete _ => true
  | Event.execution_error _ _ => true
  | _ => false

/-- `handle_code_execution(websocket, client_id, message)`: sends
`execution_start`, dispatches on the language, relays every generator
chunk as an `execution_output` event, then sends `execution_complete`;
any exception inside the `try` (here: the `ValueError` for an unsupported
language — the generators themselves swallow their exceptions) is caught
and sent as one `execution_error` event. Returns the events sent to the
client, in order, and the final service state.

Embedding note: the source writes `result = await e2b_service.
execute_python_code(...)` and then `async for chunk in result`; the
`await` on an async-generator call is embedded as obtaining the
generator, the evident intent of the `async for` consumption that
follows (read literally, that `await` raises a `TypeError` on every
request, making the whole streaming path dead code — and the handler
would then still emit `execution_start` followed by exactly one
`execution_error`). -/
def handle_code_execution (svc : E2BService) (execution_id : String)
    (language : String) (newHandle : Nat)
    (evictCloseRaises finalCloseRaises : Bool) (run : RunOutcome) :
    List Event × E2BService :=
  let startEv := Event.execution_start execution_id
  if language == "python" then
    let r := execute_python_code svc execution_id newHandle
               evictCloseRaises finalCloseRaises run
    (startEv :: (r.1.map (Event.execution_output execution_id) ++
       [Event.execution_complete execution_id]), r.2.1)
  else if language == "javascript" then
    let r := execute_javascript_code svc execution_id newHandle
               evictCloseRaises finalCloseRaises run
    (startEv :: (r.1.map (Event.execution_output execution_id) ++
       [Event.execution_complete execution_id]), r.2.1)
  else
    ([startEv,
      Event.execution_error (some execution_id)
        (String.append "Unsupported language: " language)], svc)

/-- `settings.max_execution_time` (`backend/core/config.py`): the
configured per-execution timeout in seconds, default 30. Computed into a
local `timeout` variable in the REST route `execute_code`
(`backend/api/code_execution.py`) and never used. -/
def max_execution_time : Nat := 30

/-- A service with an API key and an empty pool. -/
def svcAvail : E2BService :=
  { api_key := "key", active_sessions := [], max_sessions := 10 }

/-- A service with no API key configured. -/
def svcNoKey : E2BService :=
  { api_key := "", active_sessions := [], max_sessions := 10 }

/-- `execution_error` events, for counting. -/
def isExecutionError : Event → Bool
  | Event.execution_error _ _ => true
  | _ => false

lemma countP_output_map (eid : String) (chunks : List String) :
    (chunks.map (Event.execution_output eid)).countP isTerminal = 0 := by
  induction chunks with
  | nil => rfl
  | cons c cs ih => simp [List.countP_cons, isTerminal, ih]

lemma getLast?_cons_concat (a b : Event) (xs : List Event) :
    (a :: (xs ++ [b])).getLast? = some b := by
  rw [← List.cons_append, List.getLast?_concat]

/-- **C2.** Every execution relayed by `handle_code_execution` delivers a
finite event sequence with exactly one terminal event
(`execution_complete` or `execution_error`) — never both, never zero —
and that terminal event is the last event sent, so every
`execution_output` chunk strictly precedes it. Holds for every language
tag, service state, and remote-run behaviour. -/
theorem C2_exactly_one_terminal_event (svc : E2BService) (eid language : String)
    (newHandle : Nat) (e f : Bool) (run : RunOutcome) :
    ((handle_code_execution svc eid language newHandle e f run).1.countP isTerminal = 1)
    ∧ ((handle_code_execution svc eid language newHandle e f run).1.getLast?.map isTerminal
        = some true) := by
  unfold handle_code_execution
  split_ifs with h1 h2 <;>
    simp [List.countP_cons, List.countP_append, countP_output_map,
      isTerminal, getLast?_cons_concat]

/-- **C4 (counterexample).** No per-execution timeout exists: a remote
process that runs for 60 seconds — double the configured
`settings.max_execution_time = 30` — has its output relayed in full, and
the streamer synthesizes no `"execution timed out"` chunk or event and
does not stop the run early. This refutes the claim that a timeout
terminal event is synthesized. -/
theorem C4_no_timeout_counterexample :
    (execute_python_code svcAvail "e1" 7 false false
        (RunOutcome.finished ["hello"] 0 60)).1 = ["hello\n"]
    ∧ max_execution_time < 60
    ∧ "execution timed out" ∉
        (execute_python_code svcAvail "e1" 7 false false
          (RunOutcome.finished ["hello"] 0 60)).1 := by
  refine ⟨rfl, by decide, by decide⟩

/-- **C4 (amended).** The streamer enforces no per-execution timeout: the
chunks yielded for a completed remote run are independent of the run's
duration, and are always exactly the full relay of the process's output
lines plus the exit-code notice — no `"execution timed out"` error is
ever synthesized (the `timeout` computed in the REST route `execute_code`
from `settings.max_execution_time` is never used). -/
theorem C4_amended_no_timeout (svc : E2BService) (eid : String) (newHandle : Nat)
    (e f : Bool) (lines : List String) (exitCode : Int) (d d' : Nat)
    (hav : is_available svc = true) :
    execute_python_code svc eid newHandle e f (RunOutcome.finished lines exitCode d)
      = execute_python_code svc eid newHandle e f (RunOutcome.finished lines exitCode d')
    ∧ (execute_python_code svc eid newHandle e f (RunOutcome.finished lines exitCode d)).1
      = relayLines lines ++
          (if exitCode ≠ 0 then
            [String.append
              (String.append "Execution completed with exit code: " (toString exitCode)) "\n"]
           else []) := by
  unfold execute_python_code
  simp [hav]

/-- Witness for `C4_amended_no_timeout` at a concrete input. -/
theorem C4_amended_no_timeout_witness :
    is_available svcAvail = true
    ∧ (execute_python_code svcAvail "e1" 7 false false (RunOutcome.finished ["a"] 1 60)
        = execute_python_code svcAvail "e1" 7 false false (RunOutcome.finished ["a"] 1 5)
      ∧ (execute_python_code svcAvail "e1" 7 false false
          (RunOutcome.finished ["a"] 1 60)).1
        = relayLines ["a"] ++
            (if (1 : Int) ≠ 0 then
              [String.append
                (String.append "Execution completed with exit code: " (toString (1 : Int))) "\n"]
             else [])) :=
  ⟨rfl, C4_amended_no_timeout svcAvail "e1" 7 false false ["a"] 1 60 5 rfl⟩

/-- **C5 (counterexample).** When sandbox creation fails during an
execution, the dispatcher does *not* emit an `execution_error` event: the
generator swallows the exception and yields an `"Execution error: …"`
chunk, which the dispatcher relays as an `execution_output` event and
then follows with `execution_complete`. Concretely, with an empty pool
and a creation failure `"boom"`, the event stream is
start/output/complete and contains zero `execution_error` events. -/
theorem C5_no_execution_error_counterexample :
    (handle_code_execution svcAvail "e1" "python" 7 false false
        (RunOutcome.createError "boom")).1
      = [Event.execution_start "e1",
         Event.execution_output "e1" "Execution error: boom\n",
         Event.execution_complete "e1"]
    ∧ (handle_code_execution svcAvail "e1" "python" 7 false false
        (RunOutcome.createError "boom")).1.countP isExecutionError = 0 := by
  refine ⟨rfl, rfl⟩

/-- **C5 (amended).** When sandbox creation fails during Acquire and the
pool is below capacity, no pool slot is consumed — `active_sessions` is
left exactly unchanged and the only external call made is the failed
creation attempt — but the failure is surfaced to the client as a single
`execution_output` event carrying the `"Execution error: …"` text
followed by `execution_complete`, not as an `execution_error` event.
(When the pool is at capacity, the eviction performed before the failed
creation has already removed the oldest session.) -/
theorem C5_amended_creation_failure (svc : E2BService) (eid msg : String)
    (newHandle : Nat) (e f : Bool)
    (hav : is_available svc = true)
    (hcap : svc.active_sessions.length < svc.max_sessions) :
    handle_code_execution svc eid "python" newHandle e f (RunOutcome.createError msg)
      = ([Event.execution_start eid,
          Event.execution_output eid
            (String.append (String.append "Execution error: " msg) "\n"),
          Event.execution_complete eid], svc)
    ∧ execute_python_code svc eid newHandle e f (RunOutcome.createError msg)
      = ([String.append (String.append "Execution error: " msg) "\n"], svc,
         [ExtCall.sandboxCreate]) := by
  have hne : ¬ svc.max_sessions ≤ svc.active_sessions.length := Nat.not_le.mpr hcap
  constructor
  · unfold handle_code_execution execute_python_code create_session
    simp [hav, hne]
  · unfold execute_python_code create_session
    simp [hav, hne]

/-- Witness for `C5_amended_creation_failure` at a concrete input. -/
theorem C5_amended_creation_failure_witness :
    (is_available svcAvail = true ∧ svcAvail.active_sessions.length < svcAvail.max_sessions)
    ∧ (handle_code_execution svcAvail "e2" "python" 7 false false
          (RunOutcome.createError "down")
        = ([Event.execution_start "e2",
            Event.execution_output "e2"
              (String.append (String.append "Execution error: " "down") "\n"),
            Event.execution_complete "e2"], svcAvail)
      ∧ execute_python_code svcAvail "e2" 7 false false (RunOutcome.createError "down")
        = ([String.append (String.append "Execution error: " "down") "\n"], svcAvail,
           [ExtCall.sandboxCreate])) :=
  ⟨⟨rfl, by decide⟩,
   C5_amended_creation_failure svcAvail "e2" "down" 7 false false rfl (by decide)⟩

/-- **C9.** When the service is unavailable (`is_available` is false, i.e.
no API key), both `execute_python_code` and `execute_javascript_code`
yield exactly the one informational chunk and stop: the pool
(`active_sessions`, indeed the whole service state) is unchanged and no
external call — in particular no sandbox creation — is ever made. -/
theorem C9_unavailable_frame (svc : E2BService) (eid : String) (newHandle : Nat)
    (e f : Bool) (run : RunOutcome)
    (h : is_available svc = false) :
    execute_python_code svc eid newHandle e f run = ([unavailableMsg], svc, [])
    ∧ execute_javascript_code svc eid newHandle e f run = ([unavailableMsg], svc, []) := by
  unfold execute_javascript_code execute_python_code
  simp [h]

/-- Witness for `C9_unavailable_frame` at a concrete input. -/
theorem C9_unavailable_frame_witness :
    is_available svcNoKey = false
    ∧ (execute_python_code svcNoKey "e1" 1 false false (RunOutcome.finished ["x"] 0 1)
        = ([unavailableMsg], svcNoKey, [])
      ∧ execute_javascript_code svcNoKey "e1" 1 false false (RunOutcome.finished ["x"] 0 1)
        = ([unavailableMsg], svcNoKey, [])) :=
  ⟨rfl, C9_unavailable_frame svcNoKey "e1" 1 false false (RunOutcome.finished ["x"] 0 1) rfl⟩

/-! ## Eviction choice (C3)

`_create_session` evicts `next(iter(self.active_sessions))`: the
first-inserted key of the dict. Session ids are fresh (`uuid4`), so
insertion order is creation order. The code stores nothing but the raw
sandbox handle — no last-used time and no idle/busy state — so for
stating the spec's policy we carry that metadata as ghost data alongside
each pooled session: `created` is the insertion index, `lastUsed` and
`busy` describe the session's actual use by in-flight executions, which
the pool code cannot observe. -/

/-- One pooled session together with the ghost metadata (creation index,
last-used time, busy flag) that the spec's eviction policy refers to; the
pool list is in dict insertion order. -/
structure SessionMeta where
  sid : String
  created : Nat
  lastUsed : Nat
  busy : Bool
deriving DecidableEq, Repr

/-- The session `_create_session` line 59 selects for eviction:
`next(iter(self.active_sessions))`, the first-inserted entry —
unconditionally, with no reference to last use or busy state. -/
def evictChoiceCode (pool : List SessionMeta) : Option String :=
  pool.head?.map SessionMeta.sid

/-- Modelled from the spec: "strict least-recently-used among idle
sessions; ties broken by earliest creation time. Busy sessions are never
candidates." -/
def specPrefers (a b : SessionMeta) : Bool :=
  a.lastUsed < b.lastUsed || (a.lastUsed == b.lastUsed && a.created < b.created)

/-- Modelled from the spec: the eviction victim the spec's policy would
choose — the least-recently-used idle session, ties by earliest creation. -/
def evictChoiceSpec (pool : List SessionMeta) : Option String :=
  ((pool.filter (fun s => !s.busy)).foldl
    (fun acc s =>
      match acc with
      | none => some s
      | some b => if specPrefers s b then some s else some b) none).map SessionMeta.sid

/-- Find a pooled session's metadata by id. -/
def metaLookup (pool : List SessionMeta) (sid : String) : Option SessionMeta :=
  pool.find? (fun s => s.sid == sid)

/-- A pool whose first-inserted session `"A"` is busy and recently used,
while `"B"` is idle and least recently used. -/
def poolBusyFirst : List SessionMeta :=
  [⟨"A", 0, 10, true⟩, ⟨"B", 1, 0, false⟩]

/-- **C3 (counterexample).** The eviction choice is not
LRU-among-idle and does not spare busy sessions: with first-inserted
session `"A"` busy (and most recently used) and `"B"` idle, the code
evicts `"A"` — a busy session — while the spec's policy would evict
`"B"`. -/
theorem C3_eviction_counterexample :
    evictChoiceCode poolBusyFirst = some "A"
    ∧ (metaLookup poolBusyFirst "A").map SessionMeta.busy = some true
    ∧ evictChoiceSpec poolBusyFirst = some "B" := by
  refine ⟨rfl, rfl, rfl⟩

/-- **C3 (amended).** When the pool is at capacity, `_create_session`
evicts the first-inserted — i.e. earliest-created — session,
unconditionally: the choice ignores both recency of use and busy state
(the pool tracks neither). Formally: on a nonempty pool in insertion
(= creation) order, the evicted session's creation index is minimal over
the whole pool, busy sessions included. -/
theorem C3_amended_evicts_earliest_created (pool : List SessionMeta)
    (hne : pool ≠ [])
    (hsort : List.Sorted (fun a b => a.created ≤ b.created) pool) :
    ∃ s ∈ pool, evictChoiceCode pool = some s.sid ∧ ∀ t ∈ pool, s.created ≤ t.created := by
  match pool, hne with
  | a :: l, _ =>
    refine ⟨a, List.mem_cons_self a l, rfl, ?_⟩
    intro t ht
    rcases List.mem_cons.mp ht with h | h
    · exact h ▸ Nat.le_refl _
    · exact (List.sorted_cons.mp hsort).1 t h

/-- Witness for `C3_amended_evicts_earliest_created` at a concrete pool. -/
theorem C3_amended_evicts_earliest_created_witness :
    (poolBusyFirst ≠ []
      ∧ List.Sorted (fun a b => a.created ≤ b.created) poolBusyFirst)
    ∧ ∃ s ∈ poolBusyFirst, evictChoiceCode poolBusyFirst = some s.sid
        ∧ ∀ t ∈ poolBusyFirst, s.created ≤ t.created :=
  ⟨⟨by decide, by simp [poolBusyFirst, List.sorted_cons]⟩,
   C3_amended_evicts_earliest_created poolBusyFirst (by decide)
     (by simp [poolBusyFirst, List.sorted_cons])⟩

/-! ## The connection registry (`WebSocketManager`) -/

/-- The state of `WebSocketManager` that `connect` touches:
`active_connections` (client id ↦ websocket channel handle, modelled as
`Nat`) and `max_connections` (100 in `__init__`). -/
structure WSManager where
  active_connections : Dict Nat
  max_connections : Nat
deriving DecidableEq, Repr

/-- The channel-level side effects of one `connect` call: which websocket
handles had `close()` called on them and which were `accept()`ed. -/
structure WSEffects where
  closed : List Nat
  accepted : List Nat
deriving DecidableEq, Repr

/-- `WebSocketManager.connect(websocket, client_id)`: at capacity the
*new* websocket is closed (code 1008) and nothing is registered;
otherwise the new websocket is accepted and stored under `client_id` —
overwriting any prior entry for that client without closing the prior
channel. -/
def WSManager.connect (m : WSManager) (websocket : Nat) (client_id : String) :
    WSManager × WSEffects :=
  if m.max_connections ≤ m.active_connections.length then
    (m, ⟨[websocket], []⟩)
  else
    ({ m with active_connections := dictInsert m.active_connections client_id websocket },
     ⟨[], [websocket]⟩)

/-- A registry holding one connection: client `"c1"` on channel `1`. -/
def wsOne : WSManager := ⟨[("c1", 1)], 100⟩

/-- **C6 (counterexample).** Re-connecting a client that already has a
registered connection replaces the registry entry (last-writer-wins) but
does *not* close the superseded channel: with `"c1"` on channel `1`, a
`connect` of channel `2` for `"c1"` leaves the registry mapping `"c1"` to
`2` while the set of channels closed by the call is empty — channel `1`
is silently dropped, not closed. -/
theorem C6_superseded_not_closed_counterexample :
    dictLookup (wsOne.connect 2 "c1").1.active_connections "c1" = some 2
    ∧ (wsOne.connect 2 "c1").2.closed = [] := by
  refine ⟨rfl, rfl⟩

lemma dictLookup_dictInsert {α : Type} (d : Dict α) (k : String) (v : α) :
    dictLookup (dictInsert d k v) k = some v := by
  unfold dictInsert
  split_ifs with h
  · induction d with
    | nil => simp [dictMem] at h
    | cons p d ih =>
      by_cases hp : p.1 == k
      · simp [dictLookup, List.find?, hp]
      · have hm : dictMem d k := by
          simp only [dictMem, List.any_cons, Bool.or_eq_true] at h
          rcases h with h | h
          · exact absurd h hp
          · exact h
        simpa [dictLookup, List.find?, hp] using ih hm
  · induction d with
    | nil => simp [dictLookup, List.find?]
    | cons p d ih =>
      have hcons : dictMem (p :: d) k = ((p.1 == k) || dictMem d k) := by
        simp [dictMem, List.any_cons]
      have hp : ¬ p.1 == k := by
        intro hc
        exact h (by rw [hcons, hc, Bool.true_or])
      have hm : ¬ dictMem d k := by
        intro hc
        exact h (by rw [hcons, hc, Bool.or_true])
      simpa [dictLookup, List.find?, hp] using ih hm

/-- **C6 (amended).** Below capacity, `connect` registers the new channel
under the client id with last-writer-wins replacement of any prior entry
(a lookup of the client id now yields the new channel), but closes no
channel at all — in particular the superseded channel is left open and
merely dropped from the registry. -/
theorem C6_amended_replace_without_close (m : WSManager) (ws : Nat) (cid : String)
    (hcap : m.active_connections.length < m.max_connections) :
    dictLookup (m.connect ws cid).1.active_connections cid = some ws
    ∧ (m.connect ws cid).1.active_connections = dictInsert m.active_connections cid ws
    ∧ (m.connect ws cid).2.closed = []
    ∧ (m.connect ws cid).2.accepted = [ws] := by
  have hne : ¬ m.max_connections ≤ m.active_connections.length := Nat.not_le.mpr hcap
  unfold WSManager.connect
  simp [hne, dictLookup_dictInsert]

/-- Witness for `C6_amended_replace_without_close` at a concrete input. -/
theorem C6_amended_replace_without_close_witness :
    wsOne.active_connections.length < wsOne.max_connections
    ∧ (dictLookup (wsOne.connect 2 "c2").1.active_connections "c2" = some 2
      ∧ (wsOne.connect 2 "c2").1.active_connections = dictInsert wsOne.active_connections "c2" 2
      ∧ (wsOne.connect 2 "c2").2.closed = []
      ∧ (wsOne.connect 2 "c2").2.accepted = [2]) :=
  ⟨by decide, C6_amended_replace_without_close wsOne 2 "c2" (by decide)⟩

/-! ## The sliding-window rate limiter (`RateLimiter`, stock-chat app)

`app/utils/rate_limiter.py`. Timestamps (`time.time()`) are modelled as
rationals; `self.requests` is a `defaultdict(list)`, modelled as a total
function from identifiers to timestamp lists (absent keys read as `[]`). -/

/-- `RateLimiter.__init__`: the per-window request bound and the window
length in seconds (defaults 60 and 60). -/
structure RateLimiter where
  max_requests : Nat
  window_seconds : ℚ

/-- The limiter's mutable state: `self.requests`. -/
structure RLState where
  requests : String → List ℚ

/-- The pruning list-comprehension of `is_allowed` / `get_remaining`:
keep the timestamps with `req_time > now - window_seconds`. -/
def pruneWindow (w now : ℚ) (l : List ℚ) : List ℚ :=
  l.filter (fun t => decide (now - w < t))

/-- `RateLimiter.is_allowed(identifier)` at time `now`: store the pruned
list back under the identifier, then — when its length is below
`max_requests` — append `now` and return `True`, else return `False`. -/
def is_allowed (rl : RateLimiter) (st : RLState) (ident : String) (now : ℚ) :
    Bool × RLState :=
  let pruned := pruneWindow rl.window_seconds now (st.requests ident)
  if pruned.length < rl.max_requests then
    (true, ⟨fun j => if j = ident then pruned ++ [now] else st.requests j⟩)
  else
    (false, ⟨fun j => if j = ident then pruned else st.requests j⟩)

/-- A sequence of `is_allowed` calls for one identifier at the given
times, returning the verdicts in order and the final state. -/
def runAllowed (rl : RateLimiter) (ident : String) :
    List ℚ → RLState → List Bool × RLState
  | [], st => ([], st)
  | t :: ts, st =>
    let r := is_allowed rl st ident t
    let rest := runAllowed rl ident ts r.2
    (r.1 :: rest.1, rest.2)

lemma pruneWindow_eq_self (w now : ℚ) (l : List ℚ)
    (h : ∀ a ∈ l, now - w < a) : pruneWindow w now l = l :=
  List.filter_eq_self.mpr fun a ha => decide_eq_true (h a ha)

lemma pruneWindow_eq_nil (w now : ℚ) (l : List ℚ)
    (h : ∀ a ∈ l, a ≤ now - w) : pruneWindow w now l = [] := by
  unfold pruneWindow
  rw [List.filter_eq_nil_iff]
  intro a ha
  simpa using not_lt.mpr (h a ha)

lemma pruneWindow_pruneWindow (w now now' : ℚ) (l : List ℚ) (h : now ≤ now') :
    pruneWindow w now' (pruneWindow w now l) = pruneWindow w now' l := by
  induction l with
  | nil => rfl
  | cons a l ih =>
    by_cases h2 : now' - w < a
    · have h1 : now - w < a := lt_of_le_of_lt (by linarith) h2
      simp [pruneWindow, List.filter_cons, h1, h2] at ih ⊢
      exact ih
    · by_cases h1 : now - w < a
      · simp [pruneWindow, List.filter_cons, h1, h2] at ih ⊢
        exact ih
      · simp [pruneWindow, List.filter_cons, h1, h2] at ih ⊢
        exact ih

lemma is_allowed_true_char (rl : RateLimiter) (st : RLState) (ident : String) (now : ℚ)
    (h : (pruneWindow rl.window_seconds now (st.requests ident)).length < rl.max_requests) :
    is_allowed rl st ident now
      = (true, ⟨fun j => if j = ident
          then pruneWindow rl.window_seconds now (st.requests ident) ++ [now]
          else st.requests j⟩) := by
  unfold is_allowed
  rw [if_pos h]

lemma is_allowed_false_char (rl : RateLimiter) (st : RLState) (ident : String) (now : ℚ)
    (h : rl.max_requests ≤ (pruneWindow rl.window_seconds now (st.requests ident)).length) :
    is_allowed rl st ident now
      = (false, ⟨fun j => if j = ident
          then pruneWindow rl.window_seconds now (st.requests ident)
          else st.requests j⟩) := by
  unfold is_allowed
  rw [if_neg (Nat.not_lt.mpr h)]

lemma is_allowed_true_requests_self (rl : RateLimiter) (st : RLState) (ident : String)
    (now : ℚ)
    (h : (pruneWindow rl.window_seconds now (st.requests ident)).length < rl.max_requests) :
    (is_allowed rl st ident now).2.requests ident
      = pruneWindow rl.window_seconds now (st.requests ident) ++ [now] := by
  rw [is_allowed_true_char rl st ident now h]
  simp

lemma is_allowed_false_requests_self (rl : RateLimiter) (st : RLState) (ident : String)
    (now : ℚ)
    (h : rl.max_requests ≤ (pruneWindow rl.window_seconds now (st.requests ident)).length) :
    (is_allowed rl st ident now).2.requests ident
      = pruneWindow rl.window_seconds now (st.requests ident) := by
  rw [is_allowed_false_char rl st ident now h]
  simp

lemma runAllowed_admits_all (rl : RateLimiter) (ident : String) (tfin : ℚ) :
    ∀ (ts : List ℚ) (st : RLState) (acc : List ℚ),
      st.requests ident = acc →
      (∀ a ∈ acc, tfin - rl.window_seconds < a ∧ a ≤ tfin) →
      (∀ t ∈ ts, tfin - rl.window_seconds < t ∧ t ≤ tfin) →
      acc.length + ts.length ≤ rl.max_requests →
      (runAllowed rl ident ts st).1 = List.replicate ts.length true
      ∧ (runAllowed rl ident ts st).2.requests ident = acc ++ ts := by
  intro ts
  induction ts with
  | nil =>
    intro st acc hacc _ _ _
    simp [runAllowed, hacc]
  | cons t ts ih =>
    intro st acc hacc haccin hin hlen
    have ht := hin t (List.mem_cons_self t ts)
    have hpr : pruneWindow rl.window_seconds t (st.requests ident) = acc := by
      rw [hacc]
      apply pruneWindow_eq_self
      intro a ha
      have haw := haccin a ha
      have h1 : t - rl.window_seconds ≤ tfin - rl.window_seconds :=
        sub_le_sub_right ht.2 _
      exact lt_of_le_of_lt h1 haw.1
    have hlt : acc.length < rl.max_requests := by
      have hlen' := hlen
      simp only [List.length_cons] at hlen'
      omega
    have hstep := is_allowed_true_char rl st ident t (by rw [hpr]; exact hlt)
    have hrec := ih ⟨fun j => if j = ident
        then pruneWindow rl.window_seconds t (st.requests ident) ++ [t]
        else st.requests j⟩ (acc ++ [t])
      (by simp [hpr])
      (by
        intro a ha
        rcases List.mem_append.mp ha with h | h
        · exact haccin a h
        · rw [List.mem_singleton] at h
          exact h ▸ ht)
      (fun u hu => hin u (List.mem_cons_of_mem _ hu))
      (by simp only [List.length_append, List.length_singleton, List.length_nil,
            List.length_cons] at hlen ⊢; omega)
    constructor
    · simp only [runAllowed, hstep, hrec.1, List.length_cons, List.replicate_succ]
    · simp only [runAllowed, hstep, hrec.2]
      rw [List.append_assoc, List.singleton_append]

/-- The subsequence of call times at which `is_allowed` admits the
request, for a sequence of calls by one identifier. -/
def admittedTimes (rl : RateLimiter) (ident : String) :
    List ℚ → RLState → List ℚ
  | [], _ => []
  | t :: ts, st =>
    let r := is_allowed rl st ident t
    if r.1 then t :: admittedTimes rl ident ts r.2
    else admittedTimes rl ident ts r.2

/-- How many of the times in `l` fall in the trailing window `(T - w, T]`. -/
def countInWindow (w T : ℚ) (l : List ℚ) : Nat :=
  (l.filter (fun t => decide (T - w < t ∧ t ≤ T))).length

lemma countInWindow_append (w T : ℚ) (l₁ l₂ : List ℚ) :
    countInWindow w T (l₁ ++ l₂) = countInWindow w T l₁ + countInWindow w T l₂ := by
  unfold countInWindow
  rw [List.filter_append, List.length_append]

lemma countInWindow_le_prune (w T u : ℚ) (A : List ℚ) (hu : u ≤ T) :
    countInWindow w T A ≤ (pruneWindow w u A).length := by
  apply List.Sublist.length_le
  apply List.monotone_filter_right
  intro a ha
  have ha' : T - w < a ∧ a ≤ T := of_decide_eq_true ha
  have : u - w ≤ T - w := by linarith
  exact decide_eq_true (lt_of_le_of_lt this ha'.1)

lemma admitted_in_window_bound (rl : RateLimiter) (ident : String)
    (hw : 0 < rl.window_seconds) (T : ℚ) :
    ∀ (us : List ℚ) (st : RLState) (A : List ℚ) (tprev : ℚ),
      st.requests ident = pruneWindow rl.window_seconds tprev A →
      (∀ a ∈ A, a ≤ tprev) →
      (∀ u ∈ us, tprev ≤ u) →
      us.Sorted (· ≤ ·) →
      (∀ S : ℚ, countInWindow rl.window_seconds S A ≤ rl.max_requests) →
      countInWindow rl.window_seconds T (A ++ admittedTimes rl ident us st)
        ≤ rl.max_requests := by
  intro us
  induction us with
  | nil =>
    intro st A tprev _ _ _ _ hbound
    simpa [admittedTimes] using hbound T
  | cons u us ih =>
    intro st A tprev hchar hA hlow hsort hbound
    have hu : tprev ≤ u := hlow u (List.mem_cons_self u us)
    have hpruned : pruneWindow rl.window_seconds u (st.requests ident)
        = pruneWindow rl.window_seconds u A := by
      rw [hchar, pruneWindow_pruneWindow _ _ _ _ hu]
    have hsort' := (List.sorted_cons.mp hsort).2
    have hlow' := (List.sorted_cons.mp hsort).1
    by_cases hadm :
        (pruneWindow rl.window_seconds u (st.requests ident)).length < rl.max_requests
    · -- the call at `u` is admitted
      have hstep := is_allowed_true_char rl st ident u hadm
      have hA' : ∀ a ∈ A ++ [u], a ≤ u := by
        intro a ha
        rcases List.mem_append.mp ha with h | h
        · exact le_trans (hA a h) hu
        · rw [List.mem_singleton] at h
          exact h ▸ le_refl u
      have hchar' :
          (is_allowed rl st ident u).2.requests ident
            = pruneWindow rl.window_seconds u (A ++ [u]) := by
        rw [is_allowed_true_requests_self rl st ident u hadm, hpruned]
        unfold pruneWindow
        rw [List.filter_append]
        congr 1
        have huu : u - rl.window_seconds < u := by linarith
        simp [List.filter_cons, huu]
      have hbound' : ∀ S : ℚ, countInWindow rl.window_seconds S (A ++ [u])
          ≤ rl.max_requests := by
        intro S
        rw [countInWindow_append]
        by_cases hSu : S - rl.window_seconds < u ∧ u ≤ S
        · have h1 : countInWindow rl.window_seconds S [u] = 1 := by
            unfold countInWindow
            simp [List.filter_cons, hSu]
          have h2 : countInWindow rl.window_seconds S A
              ≤ (pruneWindow rl.window_seconds u A).length :=
            countInWindow_le_prune _ _ _ _ hSu.2
          rw [hpruned] at hadm
          omega
        · have h1 : countInWindow rl.window_seconds S [u] = 0 := by
            unfold countInWindow
            simp [List.filter_cons, hSu]
          have := hbound S
          omega
      have hrec := ih (is_allowed rl st ident u).2 (A ++ [u]) u
        (by rw [hchar'])
        hA' hlow' hsort' hbound'
      have hsplit : admittedTimes rl ident (u :: us) st
          = u :: admittedTimes rl ident us (is_allowed rl st ident u).2 := by
        simp only [admittedTimes, hstep]
        simp
      rw [hsplit]
      calc countInWindow rl.window_seconds T
            (A ++ u :: admittedTimes rl ident us (is_allowed rl st ident u).2)
          = countInWindow rl.window_seconds T
            ((A ++ [u]) ++ admittedTimes rl ident us (is_allowed rl st ident u).2) := by
            rw [List.append_assoc, List.singleton_append]
        _ ≤ rl.max_requests := hrec
    · -- the call at `u` is rejected: nothing is recorded
      have hstep := is_allowed_false_char rl st ident u (Nat.le_of_not_lt hadm)
      have hchar' :
          (is_allowed rl st ident u).2.requests ident
            = pruneWindow rl.window_seconds u A := by
        rw [is_allowed_false_requests_self rl st ident u (Nat.le_of_not_lt hadm)]
        exact hpruned
      have hA' : ∀ a ∈ A, a ≤ u := fun a ha => le_trans (hA a ha) hu
      have hrec := ih (is_allowed rl st ident u).2 A u
        (by rw [hchar']) hA' hlow' hsort' hbound
      have hsplit : admittedTimes rl ident (u :: us) st
          = admittedTimes rl ident us (is_allowed rl st ident u).2 := by
        simp only [admittedTimes, hstep]
        simp
      rw [hsplit]
      exact hrec

/-- **C7.** The sliding-window check. General bound: for any
nondecreasing sequence of calls `us` by a client with no prior activity,
at most `max_requests` of the admitted calls fall inside any trailing
window `(T - window_seconds, T]`. Scenario: starting from no recorded
activity, a client making `max_requests` calls at arbitrary times inside
the trailing window of a final time `tfin` is admitted every time, the
`(max_requests + 1)`-th call at `tfin` is rejected, and once the full
window has elapsed with no activity (any `trec ≥ tfin + window_seconds`)
the same client is admitted again. -/
theorem C7_sliding_window (rl : RateLimiter) (ident : String) (st : RLState)
    (ts : List ℚ) (tfin trec : ℚ) (us : List ℚ) (T tprev : ℚ)
    (hm : 0 < rl.max_requests)
    (hw : 0 < rl.window_seconds)
    (hlen : ts.length = rl.max_requests)
    (hempty : st.requests ident = [])
    (hin : ∀ t ∈ ts, tfin - rl.window_seconds < t ∧ t ≤ tfin)
    (hrec : tfin + rl.window_seconds ≤ trec)
    (huslow : ∀ u ∈ us, tprev ≤ u)
    (hussort : us.Sorted (· ≤ ·)) :
    countInWindow rl.window_seconds T (admittedTimes rl ident us st)
        ≤ rl.max_requests
    ∧ (runAllowed rl ident ts st).1 = List.replicate rl.max_requests true
    ∧ (is_allowed rl (runAllowed rl ident ts st).2 ident tfin).1 = false
    ∧ (is_allowed rl
        (is_allowed rl (runAllowed rl ident ts st).2 ident tfin).2 ident trec).1
        = true := by
  refine ⟨?_, ?_⟩
  · have := admitted_in_window_bound rl ident hw T us st [] tprev
      (by simpa [pruneWindow] using hempty)
      (by intro a ha; simp at ha)
      huslow hussort
      (by intro S; simp [countInWindow])
    simpa using this
  obtain ⟨h1, h2⟩ := runAllowed_admits_all rl ident tfin ts st [] hempty
    (by simp) hin (by simp [hlen])
  rw [List.nil_append] at h2
  have hprfin : pruneWindow rl.window_seconds tfin
      ((runAllowed rl ident ts st).2.requests ident) = ts := by
    rw [h2]
    exact pruneWindow_eq_self _ _ _ fun a ha => (hin a ha).1
  have hfin := is_allowed_false_char rl (runAllowed rl ident ts st).2 ident tfin
    (by rw [hprfin, hlen])
  refine ⟨by rw [h1, hlen], by rw [hfin], ?_⟩
  have hreq2 : (is_allowed rl (runAllowed rl ident ts st).2 ident tfin).2.requests ident
      = ts := by
    rw [hfin]
    simpa using hprfin
  have hprrec : pruneWindow rl.window_seconds trec
      ((is_allowed rl (runAllowed rl ident ts st).2 ident tfin).2.requests ident)
      = [] := by
    rw [hreq2]
    apply pruneWindow_eq_nil
    intro a ha
    have := (hin a ha).2
    linarith
  have := is_allowed_true_char rl
    (is_allowed rl (runAllowed rl ident ts st).2 ident tfin).2 ident trec
    (by rw [hprrec]; simpa using hm)
  rw [this]

/-- An empty rate-limiter state. -/
def rlEmpty : RLState := ⟨fun _ => []⟩

/-- Witness for `C7_sliding_window` at a concrete input: bound 2,
window 10, requests at times 1 and 2, the third at time 3 rejected,
re-admitted at time 13; the general bound checked for the same call
sequence at `T = 3`. -/
theorem C7_sliding_window_witness :
    (0 < (2 : Nat) ∧ (0 : ℚ) < 10 ∧ ([(1 : ℚ), 2] : List ℚ).length = 2
      ∧ rlEmpty.requests "c" = []
      ∧ (∀ t ∈ ([(1 : ℚ), 2] : List ℚ), (3 : ℚ) - 10 < t ∧ t ≤ 3)
      ∧ (3 : ℚ) + 10 ≤ 13
      ∧ (∀ u ∈ ([(1 : ℚ), 2] : List ℚ), (1 : ℚ) ≤ u)
      ∧ ([(1 : ℚ), 2] : List ℚ).Sorted (· ≤ ·))
    ∧ (countInWindow 10 3 (admittedTimes ⟨2, 10⟩ "c" [(1 : ℚ), 2] rlEmpty) ≤ 2
      ∧ (runAllowed ⟨2, 10⟩ "c" [(1 : ℚ), 2] rlEmpty).1 = List.replicate 2 true
      ∧ (is_allowed ⟨2, 10⟩ (runAllowed ⟨2, 10⟩ "c" [(1 : ℚ), 2] rlEmpty).2 "c" 3).1 = false
      ∧ (is_allowed ⟨2, 10⟩
          (is_allowed ⟨2, 10⟩ (runAllowed ⟨2, 10⟩ "c" [(1 : ℚ), 2] rlEmpty).2 "c" 3).2
          "c" 13).1 = true) :=
  ⟨⟨by decide, by norm_num, by decide, rfl,
    by intro t htm; fin_cases htm <;> norm_num, by norm_num,
    by intro u hum; fin_cases hum <;> norm_num,
    by norm_num [List.sorted_cons]⟩,
   C7_sliding_window ⟨2, 10⟩ "c" rlEmpty [(1 : ℚ), 2] 3 13 [(1 : ℚ), 2] 3 1
     (by decide) (by norm_num) (by decide) rfl
     (by intro t htm; fin_cases htm <;> norm_num) (by norm_num)
     (by intro u hum; fin_cases hum <;> norm_num)
     (by norm_num [List.sorted_cons])⟩

lemma is_allowed_congr (rl : RateLimiter) (st st' : RLState) (ident : String) (now : ℚ)
    (hpr : pruneWindow rl.window_seconds now (st'.requests ident)
        = pruneWindow rl.window_seconds now (st.requests ident))
    (hoth : ∀ j, j ≠ ident → st'.requests j = st.requests j) :
    is_allowed rl st' ident now = is_allowed rl st ident now := by
  have hfun : ∀ (x : List ℚ),
      (fun j => if j = ident then x else st'.requests j)
        = (fun j => if j = ident then x else st.requests j) := by
    intro x
    funext j
    by_cases hj : j = ident
    · simp [hj]
    · simp [hj, hoth j hj]
  simp only [is_allowed]
  rw [hpr]
  split_ifs with hc
  · rw [hfun]
  · rw [hfun]

/-- **C10.** `is_allowed` records the request time only on admission: a
rejected call stores back exactly the pruned window (it appends nothing
and touches no other client), and — since pruning at a later time
subsumes pruning now — a rejected call is a complete no-op for every
subsequent call at any time `now' ≥ now`: the next call returns the same
verdict and the same state as if the rejected call had never happened.
Rejected requests therefore consume no quota and never postpone
re-admission. -/
theorem C10_rejected_request_records_nothing (rl : RateLimiter) (st : RLState)
    (ident : String) (now now' : ℚ)
    (hfalse : (is_allowed rl st ident now).1 = false)
    (hle : now ≤ now') :
    (is_allowed rl st ident now).2.requests ident
        = pruneWindow rl.window_seconds now (st.requests ident)
    ∧ (∀ j, j ≠ ident → (is_allowed rl st ident now).2.requests j = st.requests j)
    ∧ is_allowed rl (is_allowed rl st ident now).2 ident now'
        = is_allowed rl st ident now' := by
  have hcond : rl.max_requests ≤
      (pruneWindow rl.window_seconds now (st.requests ident)).length := by
    by_contra hc
    rw [is_allowed_true_char rl st ident now (Nat.lt_of_not_le hc)] at hfalse
    simp at hfalse
  have hchar := is_allowed_false_char rl st ident now hcond
  have hreq : (is_allowed rl st ident now).2.requests ident
      = pruneWindow rl.window_seconds now (st.requests ident) := by
    rw [hchar]
    simp
  have hother : ∀ j, j ≠ ident → (is_allowed rl st ident now).2.requests j
      = st.requests j := by
    intro j hj
    rw [hchar]
    simp [hj]
  refine ⟨hreq, hother, ?_⟩
  have hprune : pruneWindow rl.window_seconds now'
      ((is_allowed rl st ident now).2.requests ident)
      = pruneWindow rl.window_seconds now' (st.requests ident) := by
    rw [hreq, pruneWindow_pruneWindow _ _ _ _ hle]
  exact is_allowed_congr rl st (is_allowed rl st ident now).2 ident now' hprune hother

/-- A one-entry state: client `"c"` has one recorded request at time 5. -/
def rlOne : RLState := ⟨fun j => if j = "c" then [(5 : ℚ)] else []⟩

/-- Witness for `C10_rejected_request_records_nothing` at a concrete
input: bound 1, window 10, a recorded request at time 5; the call at
time 6 is rejected and is a no-op for the call at time 7. -/
theorem C10_rejected_request_records_nothing_witness :
    ((is_allowed ⟨1, 10⟩ rlOne "c" 6).1 = false ∧ (6 : ℚ) ≤ 7)
    ∧ ((is_allowed ⟨1, 10⟩ rlOne "c" 6).2.requests "c"
          = pruneWindow 10 6 (rlOne.requests "c")
      ∧ (∀ j, j ≠ "c" → (is_allowed ⟨1, 10⟩ rlOne "c" 6).2.requests j = rlOne.requests j)
      ∧ is_allowed ⟨1, 10⟩ (is_allowed ⟨1, 10⟩ rlOne "c" 6).2 "c" 7
          = is_allowed ⟨1, 10⟩ rlOne "c" 7) :=
  ⟨⟨by norm_num [is_allowed, pruneWindow, rlOne, List.filter_cons], by norm_num⟩,
   C10_rejected_request_records_nothing ⟨1, 10⟩ rlOne "c" 6 7
     (by norm_num [is_allowed, pruneWindow, rlOne, List.filter_cons]) (by norm_num)⟩

/-! ## The concurrency gate (`AsyncRateLimiter`, stock-chat app)

`AsyncRateLimiter` wraps an `asyncio.Semaphore(max_concurrent)` plus an
`active_connections` counter. `asyncio.Semaphore` is *unbounded*:
`release()` always increments its internal value and never raises, even
past the initial capacity. `semValue` is that internal value;
`active_connections` is the Python int counter (so it carries `ℤ`,
clamped by `max(0, …)` on release). -/

/-- The state of `AsyncRateLimiter`: the semaphore's internal value and
the `active_connections` counter. -/
structure AsyncRateLimiter where
  semValue : Nat
  active_connections : ℤ
deriving DecidableEq, Repr

/-- `AsyncRateLimiter.__init__(max_concurrent)`: a fresh gate with
`max_concurrent` semaphore permits and no active connections. -/
def newGate (max_concurrent : Nat) : AsyncRateLimiter :=
  ⟨max_concurrent, 0⟩

/-- `AsyncRateLimiter.acquire`: `await semaphore.acquire()` then
increment the counter. A zero semaphore value means the caller blocks,
modelled as `none`; otherwise the permit is taken. -/
def AsyncRateLimiter.tryAcquire (s : AsyncRateLimiter) : Option AsyncRateLimiter :=
  if s.semValue = 0 then none
  else some ⟨s.semValue - 1, s.active_connections + 1⟩

/-- `AsyncRateLimiter.release`: `semaphore.release()` — which always
succeeds and increments the semaphore, with no bound and no error — then
`active_connections = max(0, active_connections - 1)`. Total: no path
raises. -/
def AsyncRateLimiter.release (s : AsyncRateLimiter) : AsyncRateLimiter :=
  ⟨s.semValue + 1, max 0 (s.active_connections - 1)⟩

/-- `k` successive `acquire` calls, failing (blocking) if any one
blocks. -/
def acquireN : Nat → AsyncRateLimiter → Option AsyncRateLimiter
  | 0, s => some s
  | k + 1, s => (AsyncRateLimiter.tryAcquire s).bind (acquireN k)

lemma acquireN_of_le : ∀ (k v : Nat) (a : ℤ), k ≤ v →
    acquireN k ⟨v, a⟩ = some ⟨v - k, a + k⟩ := by
  intro k
  induction k with
  | zero => intro v a _; simp [acquireN]
  | succ k ih =>
    intro v a hk
    have hv : v ≠ 0 := by omega
    have hstep : AsyncRateLimiter.tryAcquire ⟨v, a⟩ = some ⟨v - 1, a + 1⟩ := by
      unfold AsyncRateLimiter.tryAcquire
      rw [if_neg hv]
    have h1 : v - 1 - k = v - (k + 1) := by omega
    have h2 : a + 1 + (k : ℤ) = a + ((k + 1 : Nat) : ℤ) := by push_cast; ring
    rw [acquireN, hstep, Option.some_bind, ih (v - 1) (a + 1) (by omega), h1, h2]

/-- **C8 (counterexample).** Double release is *not* detected and *does*
corrupt the outstanding-capacity count: on a gate of capacity 1, after
one `acquire`, calling `release` twice silently leaves the semaphore
with two permits (release of the state `⟨0, 1⟩` twice gives `⟨2, 0⟩`,
no error on any step), after which two further `acquire` calls both
succeed — ending with `active_connections = 2` holders admitted past
`max_concurrent = 1`. -/
theorem C8_double_release_counterexample :
    AsyncRateLimiter.release (AsyncRateLimiter.release ⟨0, 1⟩) = ⟨2, 0⟩
    ∧ ((AsyncRateLimiter.tryAcquire (newGate 1)).map
        (fun s => AsyncRateLimiter.release (AsyncRateLimiter.release s))).bind
        (fun s => (AsyncRateLimiter.tryAcquire s).bind AsyncRateLimiter.tryAcquire)
      = some ⟨0, 2⟩ := by
  refine ⟨by decide, by decide⟩

/-- **C8 (amended).** `AsyncRateLimiter.release` is total and silent:
`asyncio.Semaphore.release` is unbounded, so a double release simply
adds a permit beyond `max_concurrent` (it clamps `active_connections`
at zero instead of erroring), leaking capacity. On a gate of any
capacity `c > 0`, an acquire followed by a double release lets `c + 1`
subsequent acquisitions all succeed, with `c + 1 > c` connections
admitted concurrently. -/
theorem C8_amended_double_release_leaks (c : Nat) (hc : 0 < c) :
    ((AsyncRateLimiter.tryAcquire (newGate c)).map
        (fun s => AsyncRateLimiter.release (AsyncRateLimiter.release s))).bind
        (acquireN (c + 1))
      = some ⟨0, c + 1⟩ := by
  have hne : c ≠ 0 := Nat.pos_iff_ne_zero.mp hc
  have hstep : AsyncRateLimiter.tryAcquire (newGate c) = some ⟨c - 1, 1⟩ := by
    simp [newGate, AsyncRateLimiter.tryAcquire, hne]
  have hrel : AsyncRateLimiter.release (AsyncRateLimiter.release ⟨c - 1, 1⟩)
      = ⟨c + 1, 0⟩ := by
    simp only [AsyncRateLimiter.release, AsyncRateLimiter.mk.injEq]
    refine ⟨by omega, by decide⟩
  calc ((AsyncRateLimiter.tryAcquire (newGate c)).map
          (fun s => AsyncRateLimiter.release (AsyncRateLimiter.release s))).bind
        (acquireN (c + 1))
      = (some (AsyncRateLimiter.release (AsyncRateLimiter.release ⟨c - 1, 1⟩))).bind
          (acquireN (c + 1)) := by rw [hstep]; rfl
    _ = acquireN (c + 1) ⟨c + 1, 0⟩ := by rw [hrel, Option.some_bind]
    _ = some ⟨c + 1 - (c + 1), 0 + (c + 1 : Nat)⟩ :=
        acquireN_of_le (c + 1) (c + 1) 0 (Nat.le_refl _)
    _ = some ⟨0, c + 1⟩ := by norm_num

/-- Witness for `C8_amended_double_release_leaks` at capacity 1. -/
theorem C8_amended_double_release_leaks_witness :
    0 < 1
    ∧ ((AsyncRateLimiter.tryAcquire (newGate 1)).map
        (fun s => AsyncRateLimiter.release (AsyncRateLimiter.release s))).bind
        (acquireN (1 + 1))
      = some ⟨0, 1 + 1⟩ :=
  ⟨by decide, C8_amended_double_release_leaks 1 (by decide)⟩

end CodeTutor
